import Mathlib

/-!
Verification of the Postpilot social-publishing pipeline.

The definitions below are a shallow embedding of the JavaScript source:
`src/services/socialMediaService.js` (the Instagram / TikTok publish
protocols, the two-platform aggregate, and the public-media-URL helper)
and `src/models/Collection.js` (the scheduled publish queue: item
mutations, the pre-save stats hook, next-post-time computation and
next-item selection).

Conventions of the embedding:
* JavaScript `Date` values are minutes since an epoch (`Nat`); a calendar
  day is 1440 minutes, `setDate(getDate()+k)` is `+ k*1440` and
  `setHours(h, m, 0, 0)` keeps the day component and replaces the time of
  day (fixed-offset clock, as on a UTC server).
* A thrown JavaScript `Error` is the `thrown msg` outcome; remote HTTP
  traffic is an oracle (`IgTransport` / `TtTransport`) and every attempted
  HTTP invocation is recorded in a returned trace of `RemoteCall`s.
* Mongoose documents are plain structures; `save()` runs the schema's
  pre-save hook (`preSave`), exactly as in the source.
-/

namespace Postpilot

/-! ### `path.basename` and `getPublicMediaUrl` (socialMediaService.js) -/

/-- Node's `path.posix.basename` without an extension argument: drop the
trailing forward slashes, then keep the last slash-free segment. -/
def basename (p : String) : String :=
  String.mk (((p.data.reverse.dropWhile (· = '/')).takeWhile (· ≠ '/')).reverse)

/-- JavaScript `String.prototype.startsWith`. -/
def jsStartsWith (s pre : String) : Bool :=
  pre.data.isPrefixOf s.data

/-- `getPublicMediaUrl(mediaPath)` from socialMediaService.js; `baseUrl`
is `process.env.FRONTEND_URL || 'http://localhost:3000'`. -/
def getPublicMediaUrl (baseUrl mediaPath : String) : String :=
  if jsStartsWith mediaPath "http://" || jsStartsWith mediaPath "https://" then
    mediaPath
  else
    baseUrl ++ "/uploads/" ++ basename mediaPath

/-- The default base URL (`process.env.FRONTEND_URL` unset). -/
def defaultBaseUrl : String := "http://localhost:3000"

/-! ### Publish protocol data (socialMediaService.js) -/

/-- One platform credential record, `user.socialAccounts.<platform>`. -/
structure SocialAccount where
  connected : Bool
  accessToken : Option String
  refreshToken : Option String
  userId : String
  username : String
  expiresAt : Option Nat
deriving DecidableEq

/-- The `user` argument of the publish methods (only `socialAccounts` is
read, so the two credential records are the whole state). -/
structure JsUser where
  instagram : SocialAccount
  tiktok : SocialAccount
deriving DecidableEq

/-- The `content` document fields the service reads. -/
structure Content where
  mediaType : String
  mediaUrl : String
  caption : Option String
  title : Option String
  fileSize : Option Nat
deriving DecidableEq

/-- Result of one publish call: a returned `{postId, postUrl}` success
object, or a thrown `Error` carrying its message. -/
inductive PublishOutcome where
  | ok (postId postUrl : String)
  | thrown (msg : String)
deriving DecidableEq

/-- One attempted remote HTTP invocation (axios call), by call site. -/
inductive RemoteCall where
  | igContainer
  | igStatus
  | igPublish
  | igPermalink
  | ttInit
  | ttUpload
  | ttStatus
deriving DecidableEq

/-- Is this remote call a processing-status poll? -/
def RemoteCall.isStatus : RemoteCall → Bool
  | .igStatus => true
  | .ttStatus => true
  | _ => false

/-- Number of status polls in a call trace. -/
def statusChecks (tr : List RemoteCall) : Nat :=
  (tr.filter (fun cl => cl.isStatus)).length

/-- JavaScript falsiness of an optional token string (`!accessToken`). -/
def tokenFalsy : Option String → Bool
  | none => true
  | some s => s.isEmpty

/-- JavaScript `expiresAt < new Date()`: `undefined` compares false. -/
def jsLtDate : Option Nat → Nat → Bool
  | none, _ => false
  | some t, now => t < now

/-- Oracle for the Instagram Graph API calls, with the poll statuses
indexed by attempt number; `Except.error` is a rejected/failed request
resolved to the message the catch block would extract. -/
structure IgTransport where
  createContainer : Except String String
  statusAt : Nat → Except String String
  publishMedia : String → Except String String
  getPermalink : String → Except String String

/-- Oracle for the TikTok open-API calls plus the local file read. -/
structure TtTransport where
  init : Except String (String × String)
  readFile : Except String Nat
  upload : Except String Unit
  statusAt : Nat → Except String String

/-- Outcome of the wait-then-check polling loop. -/
inductive PollRes where
  | ready
  | failedStatus
  | transportErr (msg : String)
  | exhausted
deriving DecidableEq

/-- The source's `while (!done && attempts < maxAttempts)` poll loop:
one status request per iteration; a `succCode` response exits ready, a
`failCode` response throws, any other response consumes one attempt.
Returns the loop outcome and the number of status requests made. -/
def pollLoop (status : Nat → Except String String) (succCode failCode : String) :
    Nat → Nat → PollRes × Nat
  | _, 0 => (.exhausted, 0)
  | attempt, fuel + 1 =>
    match status attempt with
    | .error m => (.transportErr m, 1)
    | .ok s =>
      if s = succCode then (.ready, 1)
      else if s = failCode then (.failedStatus, 1)
      else
        ((pollLoop status succCode failCode (attempt + 1) fuel).1,
          (pollLoop status succCode failCode (attempt + 1) fuel).2 + 1)

/-- `maxAttempts` of the Instagram video poll loop. -/
def igMaxPollAttempts : Nat := 20

/-- Milliseconds waited before each Instagram status poll (`setTimeout`). -/
def igPollWaitMs : Nat := 6000

/-- `maxAttempts` of the TikTok publish-status poll loop. -/
def ttMaxPollAttempts : Nat := 30

/-- Milliseconds waited before each TikTok status poll (`setTimeout`). -/
def ttPollWaitMs : Nat := 5000

/-- `postInstagramImage`: container → publish → permalink, each failure
rethrown as `Instagram posting failed: <message>`. -/
def postInstagramImage (t : IgTransport) : PublishOutcome × List RemoteCall :=
  match t.createContainer with
  | .error m => (.thrown ("Instagram posting failed: " ++ m), [.igContainer])
  | .ok creationId =>
    match t.publishMedia creationId with
    | .error m => (.thrown ("Instagram posting failed: " ++ m), [.igContainer, .igPublish])
    | .ok postId =>
      match t.getPermalink postId with
      | .error m =>
        (.thrown ("Instagram posting failed: " ++ m), [.igContainer, .igPublish, .igPermalink])
      | .ok permalink =>
        (.ok postId permalink, [.igContainer, .igPublish, .igPermalink])

/-- `postInstagramVideo`: container → bounded status polling → publish →
permalink, each failure rethrown as `Instagram video posting failed: …`. -/
def postInstagramVideo (t : IgTransport) : PublishOutcome × List RemoteCall :=
  match t.createContainer with
  | .error m => (.thrown ("Instagram video posting failed: " ++ m), [.igContainer])
  | .ok creationId =>
    let p := pollLoop t.statusAt "FINISHED" "ERROR" 0 igMaxPollAttempts
    let trace := RemoteCall.igContainer :: List.replicate p.2 RemoteCall.igStatus
    match p.1 with
    | .transportErr m => (.thrown ("Instagram video posting failed: " ++ m), trace)
    | .failedStatus => (.thrown "Instagram video posting failed: Video processing failed", trace)
    | .exhausted => (.thrown "Instagram video posting failed: Video processing timeout", trace)
    | .ready =>
      match t.publishMedia creationId with
      | .error m => (.thrown ("Instagram video posting failed: " ++ m), trace ++ [.igPublish])
      | .ok postId =>
        match t.getPermalink postId with
        | .error m =>
          (.thrown ("Instagram video posting failed: " ++ m), trace ++ [.igPublish, .igPermalink])
        | .ok permalink =>
          (.ok postId permalink, trace ++ [.igPublish, .igPermalink])

/-- `postInstagramCarousel` throws its placeholder error before any call. -/
def postInstagramCarousel : PublishOutcome × List RemoteCall :=
  (.thrown "Carousel posting not yet implemented", [])

/-- `postToInstagram`: credential guards (connected, token present, token
not expired), then dispatch on `content.mediaType`; its own catch block
rethrows every error unchanged. -/
def postToInstagram (user : JsUser) (content : Content) (now : Nat) (t : IgTransport) :
    PublishOutcome × List RemoteCall :=
  if user.instagram.connected = false then
    (.thrown "Instagram account not connected", [])
  else if tokenFalsy user.instagram.accessToken then
    (.thrown "Instagram access token missing", [])
  else if jsLtDate user.instagram.expiresAt now then
    (.thrown "Instagram access token expired. Please reconnect your account.", [])
  else if content.mediaType = "image" then postInstagramImage t
  else if content.mediaType = "video" then postInstagramVideo t
  else if content.mediaType = "carousel" then postInstagramCarousel
  else (.thrown ("Unsupported media type: " ++ content.mediaType), [])

/-- `postToTikTok`: credential guards (connected, token present — the
source checks no expiry here), video-only guard, then
init → file read → upload → bounded status polling; every thrown error is
wrapped by the catch block as `TikTok posting failed: <message>`. -/
def postToTikTok (user : JsUser) (content : Content) (t : TtTransport) :
    PublishOutcome × List RemoteCall :=
  if user.tiktok.connected = false then
    (.thrown "TikTok posting failed: TikTok account not connected", [])
  else if tokenFalsy user.tiktok.accessToken then
    (.thrown "TikTok posting failed: TikTok access token missing", [])
  else if content.mediaType ≠ "video" then
    (.thrown "TikTok posting failed: TikTok only supports video content", [])
  else
    match t.init with
    | .error m => (.thrown ("TikTok posting failed: " ++ m), [.ttInit])
    | .ok (publishId, _uploadUrl) =>
      match t.readFile with
      | .error m => (.thrown ("TikTok posting failed: " ++ m), [.ttInit])
      | .ok _size =>
        match t.upload with
        | .error m => (.thrown ("TikTok posting failed: " ++ m), [.ttInit, .ttUpload])
        | .ok _ =>
          let p := pollLoop t.statusAt "PUBLISH_COMPLETE" "FAILED" 0 ttMaxPollAttempts
          let trace :=
            [RemoteCall.ttInit, RemoteCall.ttUpload] ++ List.replicate p.2 RemoteCall.ttStatus
          match p.1 with
          | .transportErr m => (.thrown ("TikTok posting failed: " ++ m), trace)
          | .failedStatus => (.thrown "TikTok posting failed: TikTok publish failed", trace)
          | .exhausted => (.thrown "TikTok posting failed: TikTok publish timeout", trace)
          | .ready =>
            (.ok publishId
              ("https://www.tiktok.com/@" ++ user.tiktok.username ++ "/video/" ++ publishId),
              trace)

/-- The aggregate record `postToBoth` builds: per-platform result fields
(`null` on failure) and the `errors` array of `{platform, error}`. -/
structure BothResults where
  instagram : Option (String × String)
  tiktok : Option (String × String)
  errors : List (String × String)
deriving DecidableEq

/-- A platform's result field value: the success pair, or `null`. -/
def outcomeOpt : PublishOutcome → Option (String × String)
  | .ok a b => some (a, b)
  | .thrown _ => none

/-- A platform's contribution to the `errors` array. -/
def outcomeErr (platform : String) : PublishOutcome → List (String × String)
  | .ok _ _ => []
  | .thrown m => [(platform, m)]

/-- `postToBoth`: tries Instagram in its own try/catch, then TikTok in its
own try/catch, each caught error pushed onto `errors`. -/
def postToBoth (user : JsUser) (content : Content) (now : Nat)
    (tI : IgTransport) (tT : TtTransport) : BothResults :=
  let ig := postToInstagram user content now tI
  let tt := postToTikTok user content tT
  { instagram := outcomeOpt ig.1
    tiktok := outcomeOpt tt.1
    errors := outcomeErr "instagram" ig.1 ++ outcomeErr "tiktok" tt.1 }

/-! ### PublishQueue model (Collection.js) -/

/-- One entry of `collection.items`. -/
structure QItem where
  contentId : Nat
  posRow : Nat
  posCol : Nat
  order : Nat
  posted : Bool
  postedAt : Option Nat
  postId : Option String
  postUrl : Option String
deriving DecidableEq

/-- One `scheduling.postingTimes` element. -/
structure PostingTime where
  hour : Nat
  minute : Nat
deriving DecidableEq

/-- The `scheduling` subdocument fields the model methods read. -/
structure SchedulingCfg where
  enabled : Bool
  startDate : Option Nat
  endDate : Option Nat
  interval : String
  customIntervalHours : Option Nat
  postingTimes : List PostingTime
  autoPost : Bool
deriving DecidableEq

/-- The `stats` subdocument. -/
structure QStats where
  totalItems : Nat
  postedItems : Nat
  failedItems : Nat
  lastPostedAt : Option Nat
  nextPostAt : Option Nat
deriving DecidableEq

/-- A `Collection` document (the fields its methods and hook touch). -/
structure QCollection where
  items : List QItem
  scheduling : SchedulingCfg
  status : String
  stats : QStats
  errors : List String
  updatedAt : Nat
deriving DecidableEq

/-- The schema's pre-save hook: stamp `updatedAt` and recompute
`stats.totalItems`, `stats.postedItems`, `stats.failedItems`. -/
def preSave (now : Nat) (c : QCollection) : QCollection :=
  { c with
    updatedAt := now
    stats := { c.stats with
      totalItems := c.items.length
      postedItems := (c.items.filter (fun it => it.posted)).length
      failedItems := c.errors.length } }

/-- `addContent(contentId, position)`: append an unposted entry whose
`order` is the previous length, then save. -/
def addContent (c : QCollection) (cid row col : Nat) (now : Nat) : QCollection :=
  preSave now
    { c with
      items := c.items ++
        [{ contentId := cid
           posRow := row
           posCol := col
           order := c.items.length
           posted := false
           postedAt := none
           postId := none
           postUrl := none }] }

/-- The renumbering pass of `removeContent`: `item.order = index`. -/
def renumber : List QItem → Nat → List QItem
  | [], _ => []
  | it :: rest, i => { it with order := i } :: renumber rest (i + 1)

/-- `removeContent(contentId)`: drop every entry with that content id,
renumber the remainder from 0, then save. -/
def removeContent (c : QCollection) (cid : Nat) (now : Nat) : QCollection :=
  preSave now { c with items := renumber (c.items.filter (fun it => it.contentId ≠ cid)) 0 }

/-- Update the position of the first entry with the given content id. -/
def setPosFirst : List QItem → Nat → Nat → Nat → List QItem
  | [], _, _, _ => []
  | it :: rest, cid, row, col =>
    if it.contentId = cid then { it with posRow := row, posCol := col } :: rest
    else it :: setPosFirst rest cid row col

/-- `reorderContent(contentId, newPosition)`: if no entry matches, return
without saving; else overwrite that entry's position and save. -/
def reorderContent (c : QCollection) (cid row col : Nat) (now : Nat) : QCollection :=
  if c.items.any (fun it => it.contentId = cid) then
    preSave now { c with items := setPosFirst c.items cid row col }
  else c

/-- Mark the first entry with the given content id as posted, stamping
`postedAt`, `postId`, `postUrl`. -/
def markFirstPosted : List QItem → Nat → String → String → Nat → List QItem
  | [], _, _, _, _ => []
  | it :: rest, cid, pid, purl, now =>
    if it.contentId = cid then
      { it with
        posted := true
        postedAt := some now
        postId := some pid
        postUrl := some purl } :: rest
    else it :: markFirstPosted rest cid pid purl now

/-- `markAsPosted(contentId, postData)`: mark the first matching entry
posted and stamp `stats.lastPostedAt` (when found), then save. -/
def markAsPosted (c : QCollection) (cid : Nat) (pid purl : String) (now : Nat) : QCollection :=
  preSave now
    { c with
      items := markFirstPosted c.items cid pid purl now
      stats :=
        if c.items.any (fun it => it.contentId = cid) then
          { c.stats with lastPostedAt := some now }
        else c.stats }

/-- `setHours(hour, minute, 0, 0)`: keep the day, replace the time of day. -/
def setTimeOfDay (t : Nat) (h m : Nat) : Nat :=
  (t / 1440) * 1440 + h * 60 + m

/-- `calculateNextPostTime()`: `null` when disabled or no start date;
anchor at the start date, or — when that is past — at `lastPostedAt` or
now; add one interval; override the time of day with the first
`postingTimes` entry; `null` when past `endDate`. -/
def calculateNextPostTime (c : QCollection) (now : Nat) : Option Nat :=
  if c.scheduling.enabled = false then none
  else
    match c.scheduling.startDate with
    | none => none
    | some start =>
      let base :=
        if start < now then
          match c.stats.lastPostedAt with
          | some lp => lp
          | none => now
        else start
      let stepped :=
        if c.scheduling.interval = "daily" then base + 1440
        else if c.scheduling.interval = "every-other-day" then base + 2880
        else if c.scheduling.interval = "weekly" then base + 10080
        else if c.scheduling.interval = "custom" then
          match c.scheduling.customIntervalHours with
          | some h => base + h * 60
          | none => base
        else base
      let timed :=
        match c.scheduling.postingTimes with
        | [] => stepped
        | pt :: _ => setTimeOfDay stepped pt.hour pt.minute
      match c.scheduling.endDate with
      | some e => if e < timed then none else some timed
      | none => some timed

/-- `getNextItemToPost()`: the first entry whose `posted` is false. -/
def getNextItemToPost (c : QCollection) : Option QItem :=
  c.items.find? (fun it => it.posted = false)

/-- The four mutating queue operations. -/
inductive QueueOp where
  | add (cid row col : Nat)
  | remove (cid : Nat)
  | reorder (cid row col : Nat)
  | mark (cid : Nat) (pid purl : String)
deriving DecidableEq

/-- Run one queue operation at time `now`. -/
def applyOp (op : QueueOp) (c : QCollection) (now : Nat) : QCollection :=
  match op with
  | .add cid row col => addContent c cid row col now
  | .remove cid => removeContent c cid now
  | .reorder cid row col => reorderContent c cid row col now
  | .mark cid pid purl => markAsPosted c cid pid purl now

/-- The add/remove sublanguage of queue operations (claim C8). -/
inductive AROp where
  | add (cid row col : Nat)
  | remove (cid : Nat)
deriving DecidableEq

/-- Run one add/remove operation at time `now`. -/
def applyAR (op : AROp) (c : QCollection) (now : Nat) : QCollection :=
  match op with
  | .add cid row col => addContent c cid row col now
  | .remove cid => removeContent c cid now

/-- Run a timed sequence of add/remove operations. -/
def applySeq : List (AROp × Nat) → QCollection → QCollection
  | [], c => c
  | (op, now) :: rest, c => applySeq rest (applyAR op c now)

/-- `order` values read off the entries, in array order, are `0..n-1`. -/
def ordersContiguous (c : QCollection) : Prop :=
  c.items.map (fun it => it.order) = List.range c.items.length

/-- The stats invariant of claim C7. -/
def statsAccurate (c : QCollection) : Prop :=
  c.stats.totalItems = c.items.length ∧
    c.stats.postedItems = (c.items.filter (fun it => it.posted)).length

/-- A freshly created collection: no items, no errors, scheduling off. -/
def emptyCollection : QCollection :=
  { items := []
    scheduling :=
      { enabled := false
        startDate := none
        endDate := none
        interval := "daily"
        customIntervalHours := none
        postingTimes := []
        autoPost := false }
    status := "draft"
    stats :=
      { totalItems := 0
        postedItems := 0
        failedItems := 0
        lastPostedAt := none
        nextPostAt := none }
    errors := []
    updatedAt := 0 }

/-! ### Concrete inputs (used in witnesses and counterexamples) -/

/-- A user with both platforms connected; the TikTok token expiry is in
the past relative to `now = 1`. -/
def wUser : JsUser :=
  { instagram :=
      { connected := true
        accessToken := some "ig-token"
        refreshToken := none
        userId := "igu"
        username := "igname"
        expiresAt := some 100 }
    tiktok :=
      { connected := true
        accessToken := some "tt-token"
        refreshToken := none
        userId := "ttu"
        username := "alice"
        expiresAt := some 0 } }

/-- The same user with Instagram disconnected. -/
def wUserIgOff : JsUser :=
  { wUser with instagram := { wUser.instagram with connected := false } }

/-- The same user with TikTok disconnected. -/
def wUserTtOff : JsUser :=
  { wUser with tiktok := { wUser.tiktok with connected := false } }

/-- A video content item. -/
def wVideo : Content :=
  { mediaType := "video"
    mediaUrl := "clip.mp4"
    caption := some "hi"
    title := none
    fileSize := some 9 }

/-- An image content item. -/
def wImage : Content :=
  { mediaType := "image"
    mediaUrl := "pic.jpg"
    caption := some "hi"
    title := none
    fileSize := none }

/-- An Instagram transport that reports one processing poll and then a
finished status, with every other call succeeding. -/
def wIgT : IgTransport :=
  { createContainer := .ok "c1"
    statusAt := fun i => if i = 0 then .ok "IN_PROGRESS" else .ok "FINISHED"
    publishMedia := fun _ => .ok "p1"
    getPermalink := fun _ => .ok "l1" }

/-- A TikTok transport that reports one processing poll and then
`PUBLISH_COMPLETE`, with every other call succeeding. -/
def wTtT : TtTransport :=
  { init := .ok ("pid1", "upload-url")
    readFile := .ok 9
    upload := .ok ()
    statusAt := fun i => if i = 0 then .ok "PROCESSING_DOWNLOAD" else .ok "PUBLISH_COMPLETE" }

/-- The C5 queue: scheduling enabled, daily, start date in the past, one
posting time at 20:00, never posted before. -/
def wDailyQueue : QCollection :=
  { emptyCollection with
    scheduling :=
      { enabled := true
        startDate := some 0
        endDate := none
        interval := "daily"
        customIntervalHours := none
        postingTimes := [{ hour := 20, minute := 0 }]
        autoPost := true } }

/-- A queue entry template. -/
def wItem (cid ord : Nat) (p : Bool) : QItem :=
  { contentId := cid
    posRow := 0
    posCol := ord
    order := ord
    posted := p
    postedAt := none
    postId := none
    postUrl := none }

/-- A two-entry queue whose first entry is posted and second is not,
with accurate stats and contiguous orders. -/
def wQueue2 : QCollection :=
  { emptyCollection with
    items := [wItem 10 0 true, wItem 11 1 false]
    stats := { emptyCollection.stats with totalItems := 2, postedItems := 1 } }

/-! ### Helper lemmas -/

lemma data_append (a b : String) : (a ++ b).data = a.data ++ b.data := by
  cases a; cases b; rfl

lemma jsStartsWith_append (a b pre : String) (h : jsStartsWith a pre = true) :
    jsStartsWith (a ++ b) pre = true := by
  simp only [jsStartsWith, List.isPrefixOf_iff_prefix] at h ⊢
  rw [data_append]
  exact h.trans (List.prefix_append _ _)

lemma getPublicMediaUrl_startsWith (baseUrl p : String)
    (hb : jsStartsWith baseUrl "http://" = true ∨ jsStartsWith baseUrl "https://" = true) :
    jsStartsWith (getPublicMediaUrl baseUrl p) "http://" = true ∨
      jsStartsWith (getPublicMediaUrl baseUrl p) "https://" = true := by
  unfold getPublicMediaUrl
  by_cases h : (jsStartsWith p "http://" || jsStartsWith p "https://") = true
  · rw [if_pos h]
    rcases Bool.or_eq_true_iff.mp h with h' | h'
    · exact Or.inl h'
    · exact Or.inr h'
  · rw [if_neg h]
    rcases hb with hb | hb
    · exact Or.inl (by rw [String.append_assoc]; exact jsStartsWith_append _ _ _ hb)
    · exact Or.inr (by rw [String.append_assoc]; exact jsStartsWith_append _ _ _ hb)

lemma getPublicMediaUrl_fixed (baseUrl p : String)
    (h : jsStartsWith p "http://" = true ∨ jsStartsWith p "https://" = true) :
    getPublicMediaUrl baseUrl p = p := by
  unfold getPublicMediaUrl
  rcases h with h | h <;> simp [h]

lemma pollLoop_ready (status : Nat → Except String String) (succCode failCode : String) :
    ∀ (N fuel attempt : Nat), N < fuel →
    (∀ i, i < N → ∃ s, status (attempt + i) = .ok s ∧ s ≠ succCode ∧ s ≠ failCode) →
    status (attempt + N) = .ok succCode →
    pollLoop status succCode failCode attempt fuel = (.ready, N + 1) := by
  intro N
  induction N with
  | zero =>
    intro fuel attempt hf _ hS
    match fuel, hf with
    | f + 1, _ =>
      rw [Nat.add_zero] at hS
      simp [pollLoop, hS]
  | succ N ih =>
    intro fuel attempt hf hne hS
    match fuel, hf with
    | f + 1, hf =>
      obtain ⟨s, hs, hs1, hs2⟩ := hne 0 (Nat.succ_pos N)
      rw [Nat.add_zero] at hs
      have hrec : pollLoop status succCode failCode (attempt + 1) f = (.ready, N + 1) := by
        refine ih f (attempt + 1) (Nat.lt_of_succ_lt_succ hf) ?_ ?_
        · intro i hi
          have heq : attempt + 1 + i = attempt + (i + 1) := by omega
          rw [heq]
          exact hne (i + 1) (Nat.succ_lt_succ hi)
        · have heq : attempt + 1 + N = attempt + (N + 1) := by omega
          rw [heq]
          exact hS
      simp only [pollLoop, hs, if_neg hs1, if_neg hs2, hrec]

lemma pollLoop_exhausted (status : Nat → Except String String) (succCode failCode : String)
    (hall : ∀ i, ∃ s, status i = .ok s ∧ s ≠ succCode ∧ s ≠ failCode) :
    ∀ fuel attempt, pollLoop status succCode failCode attempt fuel = (.exhausted, fuel) := by
  intro fuel
  induction fuel with
  | zero => intro attempt; rfl
  | succ f ih =>
    intro attempt
    obtain ⟨s, hs, h1, h2⟩ := hall attempt
    simp only [pollLoop, hs, if_neg h1, if_neg h2, ih (attempt + 1)]

lemma statusChecks_append (a b : List RemoteCall) :
    statusChecks (a ++ b) = statusChecks a + statusChecks b := by
  simp [statusChecks, List.filter_append]

lemma statusChecks_cons (x : RemoteCall) (l : List RemoteCall) :
    statusChecks (x :: l) = (if x.isStatus then 1 else 0) + statusChecks l := by
  by_cases h : x.isStatus <;>
    simp [statusChecks, List.filter_cons, h, Nat.succ_eq_add_one, Nat.add_comm]

lemma statusChecks_replicate_ig (n : Nat) :
    statusChecks (List.replicate n RemoteCall.igStatus) = n := by
  induction n with
  | zero => rfl
  | succ k ih =>
    simp [List.replicate_succ, statusChecks, List.filter_cons, RemoteCall.isStatus, ih]

lemma statusChecks_replicate_tt (n : Nat) :
    statusChecks (List.replicate n RemoteCall.ttStatus) = n := by
  induction n with
  | zero => rfl
  | succ k ih =>
    simp [List.replicate_succ, statusChecks, List.filter_cons, RemoteCall.isStatus, ih]

lemma find?_first {α : Type} (p : α → Bool) :
    ∀ (l : List α) (a : α), l.find? p = some a →
      ∃ (i : Nat) (hi : i < l.length), l.get ⟨i, hi⟩ = a ∧ p a = true ∧
        ∀ (j : Nat) (hj : j < l.length), j < i → p (l.get ⟨j, hj⟩) = false := by
  intro l
  induction l with
  | nil => intro a h; simp at h
  | cons x xs ih =>
    intro a h
    by_cases hx : p x = true
    · rw [List.find?_cons_of_pos _ hx] at h
      obtain rfl : x = a := by injection h
      refine ⟨0, by simp, rfl, hx, ?_⟩
      intro j hj hj0
      omega
    · rw [List.find?_cons_of_neg _ hx] at h
      obtain ⟨i, hi, hget, hpa, hmin⟩ := ih a h
      refine ⟨i + 1, by simpa using Nat.succ_lt_succ hi, by simpa using hget, hpa, ?_⟩
      intro j hj hji
      cases j with
      | zero => simpa using Bool.eq_false_iff.mpr hx
      | succ k =>
        have hk : k < xs.length := by simpa using hj
        simpa using hmin k hk (by omega)

lemma ordersContiguous_get (c : QCollection) (h : ordersContiguous c) (i : Nat)
    (hi : i < c.items.length) : (c.items.get ⟨i, hi⟩).order = i := by
  have h2 := congrArg (fun l => l[i]?) h
  simp only [List.getElem?_map] at h2
  rw [List.getElem?_eq_getElem hi, List.getElem?_range hi] at h2
  have h3 : some ((c.items.get ⟨i, hi⟩).order) = some i := by
    simpa [List.get_eq_getElem] using h2
  exact Option.some.inj h3

lemma renumber_length : ∀ (l : List QItem) (i : Nat), (renumber l i).length = l.length := by
  intro l
  induction l with
  | nil => intro i; rfl
  | cons x xs ih => intro i; simp [renumber, ih]

lemma renumber_map_order : ∀ (l : List QItem) (i : Nat),
    (renumber l i).map (fun it => it.order) = List.range' i l.length := by
  intro l
  induction l with
  | nil => intro i; rfl
  | cons x xs ih => intro i; simp [renumber, ih, List.range'_succ]

lemma renumber_mem : ∀ (l : List QItem) (i : Nat) (it : QItem), it ∈ renumber l i →
    ∃ it₀ ∈ l, it.contentId = it₀.contentId ∧ it.posted = it₀.posted := by
  intro l
  induction l with
  | nil => intro i it h; simp [renumber] at h
  | cons x xs ih =>
    intro i it h
    simp only [renumber, List.mem_cons] at h
    rcases h with rfl | h
    · exact ⟨x, List.mem_cons_self x xs, rfl, rfl⟩
    · obtain ⟨it₀, hm, h1, h2⟩ := ih (i + 1) it h
      exact ⟨it₀, List.mem_cons_of_mem x hm, h1, h2⟩

lemma renumber_mem_of : ∀ (l : List QItem) (i : Nat) (it₀ : QItem), it₀ ∈ l →
    ∃ it ∈ renumber l i, it.contentId = it₀.contentId ∧ it.posted = it₀.posted := by
  intro l
  induction l with
  | nil => intro i it₀ h; simp at h
  | cons x xs ih =>
    intro i it₀ h
    rcases List.mem_cons.mp h with rfl | h
    · exact ⟨{ it₀ with order := i }, List.mem_cons_self _ _, rfl, rfl⟩
    · obtain ⟨it, hm, h1, h2⟩ := ih (i + 1) it₀ h
      exact ⟨it, List.mem_cons_of_mem _ hm, h1, h2⟩

lemma setPosFirst_mem : ∀ (l : List QItem) (cid row col : Nat) (it : QItem),
    it ∈ setPosFirst l cid row col →
    ∃ it₀ ∈ l, it.contentId = it₀.contentId ∧ it.posted = it₀.posted := by
  intro l
  induction l with
  | nil => intro cid row col it h; simp [setPosFirst] at h
  | cons x xs ih =>
    intro cid row col it h
    by_cases hx : x.contentId = cid
    · simp only [setPosFirst, if_pos hx, List.mem_cons] at h
      rcases h with rfl | h
      · exact ⟨x, List.mem_cons_self x xs, rfl, rfl⟩
      · exact ⟨it, List.mem_cons_of_mem x h, rfl, rfl⟩
    · simp only [setPosFirst, if_neg hx, List.mem_cons] at h
      rcases h with rfl | h
      · exact ⟨it, List.mem_cons_self it xs, rfl, rfl⟩
      · obtain ⟨it₀, hm, h1, h2⟩ := ih cid row col it h
        exact ⟨it₀, List.mem_cons_of_mem x hm, h1, h2⟩

lemma setPosFirst_preserve : ∀ (l : List QItem) (cid row col : Nat) (it₀ : QItem),
    it₀ ∈ l →
    ∃ it ∈ setPosFirst l cid row col, it.contentId = it₀.contentId ∧ it.posted = it₀.posted := by
  intro l
  induction l with
  | nil => intro cid row col it₀ h; simp at h
  | cons x xs ih =>
    intro cid row col it₀ h
    by_cases hx : x.contentId = cid
    · simp only [setPosFirst, if_pos hx]
      rcases List.mem_cons.mp h with rfl | h
      · exact ⟨{ it₀ with posRow := row, posCol := col }, List.mem_cons_self _ _, rfl, rfl⟩
      · exact ⟨it₀, List.mem_cons_of_mem _ h, rfl, rfl⟩
    · simp only [setPosFirst, if_neg hx]
      rcases List.mem_cons.mp h with rfl | h
      · exact ⟨it₀, List.mem_cons_self _ _, rfl, rfl⟩
      · obtain ⟨it, hm, h1, h2⟩ := ih cid row col it₀ h
        exact ⟨it, List.mem_cons_of_mem _ hm, h1, h2⟩

lemma markFirstPosted_mem : ∀ (l : List QItem) (cid : Nat) (pid purl : String) (now : Nat)
    (it : QItem), it ∈ markFirstPosted l cid pid purl now →
    it ∈ l ∨ (it.contentId = cid ∧ it.posted = true) := by
  intro l
  induction l with
  | nil => intro cid pid purl now it h; simp [markFirstPosted] at h
  | cons x xs ih =>
    intro cid pid purl now it h
    by_cases hx : x.contentId = cid
    · simp only [markFirstPosted, if_pos hx, List.mem_cons] at h
      rcases h with rfl | h
      · exact Or.inr ⟨hx, rfl⟩
      · exact Or.inl (List.mem_cons_of_mem x h)
    · simp only [markFirstPosted, if_neg hx, List.mem_cons] at h
      rcases h with rfl | h
      · exact Or.inl (List.mem_cons_self it xs)
      · rcases ih cid pid purl now it h with h | h
        · exact Or.inl (List.mem_cons_of_mem x h)
        · exact Or.inr h

lemma markFirstPosted_preserve : ∀ (l : List QItem) (cid : Nat) (pid purl : String) (now : Nat)
    (it₀ : QItem), it₀ ∈ l → it₀.posted = true →
    ∃ it ∈ markFirstPosted l cid pid purl now,
      it.contentId = it₀.contentId ∧ it.posted = true := by
  intro l
  induction l with
  | nil => intro cid pid purl now it₀ h _; simp at h
  | cons x xs ih =>
    intro cid pid purl now it₀ h hp
    by_cases hx : x.contentId = cid
    · simp only [markFirstPosted, if_pos hx]
      rcases List.mem_cons.mp h with rfl | h
      · refine ⟨{ it₀ with
            posted := true
            postedAt := some now
            postId := some pid
            postUrl := some purl }, List.mem_cons_self _ _, rfl, rfl⟩
      · exact ⟨it₀, List.mem_cons_of_mem _ h, rfl, hp⟩
    · simp only [markFirstPosted, if_neg hx]
      rcases List.mem_cons.mp h with rfl | h
      · exact ⟨it₀, List.mem_cons_self _ _, rfl, hp⟩
      · obtain ⟨it, hm, h1, h2⟩ := ih cid pid purl now it₀ h hp
        exact ⟨it, List.mem_cons_of_mem _ hm, h1, h2⟩

/-! ### Claim theorems -/

/-- C10. `getPublicMediaUrl` is idempotent: its result always begins with
`http://` or `https://` (given that the configured base URL does, as the
default `http://localhost:3000` does), and any input that already begins
with `http://` or `https://` is returned unchanged — so applying it twice
equals applying it once. -/
theorem getPublicMediaUrl_idempotent (baseUrl : String)
    (hb : jsStartsWith baseUrl "http://" = true ∨ jsStartsWith baseUrl "https://" = true)
    (p : String) :
    getPublicMediaUrl baseUrl (getPublicMediaUrl baseUrl p) = getPublicMediaUrl baseUrl p ∧
    (jsStartsWith (getPublicMediaUrl baseUrl p) "http://" = true ∨
      jsStartsWith (getPublicMediaUrl baseUrl p) "https://" = true) ∧
    ((jsStartsWith p "http://" = true ∨ jsStartsWith p "https://" = true) →
      getPublicMediaUrl baseUrl p = p) := by
  refine ⟨?_, getPublicMediaUrl_startsWith baseUrl p hb, getPublicMediaUrl_fixed baseUrl p⟩
  exact getPublicMediaUrl_fixed baseUrl _ (getPublicMediaUrl_startsWith baseUrl p hb)

/-- C2. Protocol B polling, both platforms: with `N + 1` within the poll
budget, a remote that reports a non-terminal status for the first `N`
polls and the terminal success status on poll `N + 1` makes the publish
perform exactly `N + 1` status checks and then succeed; a remote that
reports a non-terminal status on every poll makes it terminate with the
timeout error after exactly the bounded maximum number of polls —
20 attempts at 6 s for the Instagram video path and 30 attempts at 5 s
for the TikTok path. -/
theorem protocolB_poll_budget :
    (∀ (t : IgTransport) (N : Nat), N + 1 ≤ igMaxPollAttempts →
      (∀ i, i < N → ∃ s, t.statusAt i = Except.ok s ∧ s ≠ "FINISHED" ∧ s ≠ "ERROR") →
      t.statusAt N = Except.ok "FINISHED" →
      ∀ cid pid purl, t.createContainer = Except.ok cid →
        t.publishMedia cid = Except.ok pid → t.getPermalink pid = Except.ok purl →
        statusChecks (postInstagramVideo t).2 = N + 1 ∧
          (postInstagramVideo t).1 = PublishOutcome.ok pid purl) ∧
    (∀ (t : IgTransport) (cid : String),
      (∀ i, ∃ s, t.statusAt i = Except.ok s ∧ s ≠ "FINISHED" ∧ s ≠ "ERROR") →
      t.createContainer = Except.ok cid →
      statusChecks (postInstagramVideo t).2 = igMaxPollAttempts ∧
        (postInstagramVideo t).1 =
          PublishOutcome.thrown "Instagram video posting failed: Video processing timeout") ∧
    igMaxPollAttempts = 20 ∧ igPollWaitMs = 6000 ∧
    (∀ (u : JsUser) (content : Content) (t : TtTransport) (N : Nat),
      u.tiktok.connected = true → tokenFalsy u.tiktok.accessToken = false →
      content.mediaType = "video" → N + 1 ≤ ttMaxPollAttempts →
      (∀ i, i < N →
        ∃ s, t.statusAt i = Except.ok s ∧ s ≠ "PUBLISH_COMPLETE" ∧ s ≠ "FAILED") →
      t.statusAt N = Except.ok "PUBLISH_COMPLETE" →
      ∀ pid uurl sz, t.init = Except.ok (pid, uurl) → t.readFile = Except.ok sz →
        t.upload = Except.ok () →
        statusChecks (postToTikTok u content t).2 = N + 1 ∧
          (postToTikTok u content t).1 =
            PublishOutcome.ok pid
              ("https://www.tiktok.com/@" ++ u.tiktok.username ++ "/video/" ++ pid)) ∧
    (∀ (u : JsUser) (content : Content) (t : TtTransport),
      u.tiktok.connected = true → tokenFalsy u.tiktok.accessToken = false →
      content.mediaType = "video" →
      (∀ i, ∃ s, t.statusAt i = Except.ok s ∧ s ≠ "PUBLISH_COMPLETE" ∧ s ≠ "FAILED") →
      ∀ pid uurl sz, t.init = Except.ok (pid, uurl) → t.readFile = Except.ok sz →
        t.upload = Except.ok () →
        statusChecks (postToTikTok u content t).2 = ttMaxPollAttempts ∧
          (postToTikTok u content t).1 =
            PublishOutcome.thrown "TikTok posting failed: TikTok publish timeout") ∧
    ttMaxPollAttempts = 30 ∧ ttPollWaitMs = 5000 := by
  refine ⟨?_, ?_, rfl, rfl, ?_, ?_, rfl, rfl⟩
  · intro t N hN hproc hfin cid pid purl hc hp hl
    have hpoll : pollLoop t.statusAt "FINISHED" "ERROR" 0 igMaxPollAttempts = (.ready, N + 1) := by
      refine pollLoop_ready _ _ _ N igMaxPollAttempts 0 hN ?_ ?_
      · intro i hi
        simpa using hproc i hi
      · simpa using hfin
    simp only [postInstagramVideo, hc, hpoll, hp, hl]
    constructor
    · simp [statusChecks_cons, statusChecks_append, statusChecks_replicate_ig,
        RemoteCall.isStatus, statusChecks]
    · trivial
  · intro t cid hall hc
    have hpoll : pollLoop t.statusAt "FINISHED" "ERROR" 0 igMaxPollAttempts =
        (.exhausted, igMaxPollAttempts) :=
      pollLoop_exhausted t.statusAt "FINISHED" "ERROR" hall igMaxPollAttempts 0
    simp only [postInstagramVideo, hc, hpoll]
    constructor
    · simp [statusChecks_cons, statusChecks_replicate_ig, RemoteCall.isStatus]
    · trivial
  · intro u content t N hconn htok hmt hN hproc hfin pid uurl sz hinit hread hupl
    have hpoll : pollLoop t.statusAt "PUBLISH_COMPLETE" "FAILED" 0 ttMaxPollAttempts =
        (.ready, N + 1) := by
      refine pollLoop_ready _ _ _ N ttMaxPollAttempts 0 hN ?_ ?_
      · intro i hi
        simpa using hproc i hi
      · simpa using hfin
    simp only [postToTikTok, hconn, htok, hmt, hinit, hread, hupl, hpoll]
    constructor
    · simp [statusChecks_cons, statusChecks_append, statusChecks_replicate_tt,
        RemoteCall.isStatus, statusChecks]
    · simp
  · intro u content t hconn htok hmt hall pid uurl sz hinit hread hupl
    have hpoll : pollLoop t.statusAt "PUBLISH_COMPLETE" "FAILED" 0 ttMaxPollAttempts =
        (.exhausted, ttMaxPollAttempts) :=
      pollLoop_exhausted t.statusAt "PUBLISH_COMPLETE" "FAILED" hall ttMaxPollAttempts 0
    simp only [postToTikTok, hconn, htok, hmt, hinit, hread, hupl, hpoll]
    constructor
    · simp [statusChecks_cons, statusChecks_append, statusChecks_replicate_tt,
        RemoteCall.isStatus]
    · simp

/-- C2 witness: on the concrete transports that report one processing
poll and then the terminal success status, the Instagram video publish
makes exactly 2 status checks and succeeds. -/
theorem protocolB_poll_budget_witness :
    wIgT.statusAt 1 = Except.ok "FINISHED" ∧
      statusChecks (postInstagramVideo wIgT).2 = 2 ∧
      (postInstagramVideo wIgT).1 = PublishOutcome.ok "p1" "l1" := by
  have hproc : ∀ i, i < 1 → ∃ s, wIgT.statusAt i = Except.ok s ∧
      s ≠ "FINISHED" ∧ s ≠ "ERROR" := by
    intro i hi
    have h0 : i = 0 := by omega
    subst h0
    exact ⟨"IN_PROGRESS", rfl, by decide, by decide⟩
  have h := protocolB_poll_budget.1 wIgT 1 (by decide) hproc rfl "c1" "p1" "l1" rfl rfl rfl
  exact ⟨rfl, h.1, h.2⟩

/-- C1 counterexample: a TikTok credential that is connected but whose
`expiresAt` (0) is already in the past at `now = 1` is not rejected
before remote traffic — the publish performs four remote HTTP calls and
succeeds, because the TikTok path never consults `expiresAt` (the
embedded `postToTikTok` takes no clock at all). -/
theorem tiktokExpiryNotChecked_cx :
    jsLtDate wUser.tiktok.expiresAt 1 = true ∧
      wUser.tiktok.connected = true ∧
      (postToTikTok wUser wVideo wTtT).2.length = 4 ∧
      (postToTikTok wUser wVideo wTtT).1 =
        PublishOutcome.ok "pid1" "https://www.tiktok.com/@alice/video/pid1" := by
  refine ⟨rfl, rfl, ?_, ?_⟩ <;> decide

/-- C1 (amended). Credential guards: on the Instagram path a connection
that is not connected, has a missing token, or has an expired token fails
with the corresponding thrown credential error and zero remote HTTP
calls; on the TikTok path a connection that is not connected or has a
missing token fails likewise with zero remote HTTP calls — but the
TikTok path does not check `expiresAt`. -/
theorem credentialGuards (u : JsUser) (content : Content) (now : Nat)
    (tI : IgTransport) (tT : TtTransport) :
    (u.instagram.connected = false ∨ tokenFalsy u.instagram.accessToken = true ∨
        jsLtDate u.instagram.expiresAt now = true →
      (postToInstagram u content now tI).2 = [] ∧
        ((postToInstagram u content now tI).1 =
            PublishOutcome.thrown "Instagram account not connected" ∨
          (postToInstagram u content now tI).1 =
            PublishOutcome.thrown "Instagram access token missing" ∨
          (postToInstagram u content now tI).1 =
            PublishOutcome.thrown
              "Instagram access token expired. Please reconnect your account.")) ∧
    (u.tiktok.connected = false ∨ tokenFalsy u.tiktok.accessToken = true →
      (postToTikTok u content tT).2 = [] ∧
        ((postToTikTok u content tT).1 =
            PublishOutcome.thrown "TikTok posting failed: TikTok account not connected" ∨
          (postToTikTok u content tT).1 =
            PublishOutcome.thrown "TikTok posting failed: TikTok access token missing")) := by
  constructor
  · intro h
    unfold postToInstagram
    by_cases h1 : u.instagram.connected = false
    · simp [h1]
    · rw [if_neg h1]
      by_cases h2 : tokenFalsy u.instagram.accessToken = true
      · simp [h2]
      · rw [if_neg h2]
        have h3 : jsLtDate u.instagram.expiresAt now = true := by
          rcases h with h | h | h
          · exact absurd h h1
          · exact absurd h h2
          · exact h
        simp [h3]
  · intro h
    unfold postToTikTok
    by_cases h1 : u.tiktok.connected = false
    · simp [h1]
    · rw [if_neg h1]
      have h2 : tokenFalsy u.tiktok.accessToken = true := by
        rcases h with h | h
        · exact absurd h h1
        · exact h
      simp [h2]

/-- C1 witness: an Instagram credential with `connected = false` is
rejected with zero remote HTTP calls. -/
theorem credentialGuards_witness :
    wUserIgOff.instagram.connected = false ∧
      (postToInstagram wUserIgOff wImage 0 wIgT).2 = [] := by
  have h := (credentialGuards wUserIgOff wImage 0 wIgT wTtT).1 (Or.inl rfl)
  exact ⟨rfl, h.1⟩

/-- C3. Aggregating a two-platform publish: each platform's field of the
aggregate is exactly the outcome of its own standalone publish call (one
platform's failure neither aborts nor alters the other's attempt), and
when one platform succeeds while the other fails, the aggregate carries
the successful platform's full result and exactly one `errors` entry
with the failing platform's name and message. -/
theorem bothAggregation (u : JsUser) (content : Content) (now : Nat)
    (tI : IgTransport) (tT : TtTransport) :
    ((postToBoth u content now tI tT).instagram =
        outcomeOpt (postToInstagram u content now tI).1 ∧
      (postToBoth u content now tI tT).tiktok = outcomeOpt (postToTikTok u content tT).1) ∧
    (∀ a b m, (postToInstagram u content now tI).1 = PublishOutcome.ok a b →
      (postToTikTok u content tT).1 = PublishOutcome.thrown m →
      (postToBoth u content now tI tT).instagram = some (a, b) ∧
        (postToBoth u content now tI tT).errors = [("tiktok", m)]) ∧
    (∀ a b m, (postToTikTok u content tT).1 = PublishOutcome.ok a b →
      (postToInstagram u content now tI).1 = PublishOutcome.thrown m →
      (postToBoth u content now tI tT).tiktok = some (a, b) ∧
        (postToBoth u content now tI tT).errors = [("instagram", m)]) := by
  refine ⟨⟨rfl, rfl⟩, ?_, ?_⟩
  · intro a b m hig htt
    simp [postToBoth, outcomeOpt, outcomeErr, hig, htt]
  · intro a b m htt hig
    simp [postToBoth, outcomeOpt, outcomeErr, hig, htt]

/-- C3 witness: Instagram succeeds while TikTok (disconnected) fails; the
aggregate keeps the Instagram result and has exactly the TikTok error. -/
theorem bothAggregation_witness :
    (postToInstagram wUserTtOff wVideo 0 wIgT).1 = PublishOutcome.ok "p1" "l1" ∧
      (postToTikTok wUserTtOff wVideo wTtT).1 =
        PublishOutcome.thrown "TikTok posting failed: TikTok account not connected" ∧
      (postToBoth wUserTtOff wVideo 0 wIgT wTtT).instagram = some ("p1", "l1") ∧
      (postToBoth wUserTtOff wVideo 0 wIgT wTtT).errors =
        [("tiktok", "TikTok posting failed: TikTok account not connected")] := by
  have h := (bothAggregation wUserTtOff wVideo 0 wIgT wTtT).2.1 "p1" "l1"
    "TikTok posting failed: TikTok account not connected" (by decide) (by decide)
  exact ⟨by decide, by decide, h.1, h.2⟩

/-- C4 counterexample: two expected failures — a disconnected Instagram
credential and a non-video TikTok item — make the single-platform publish
throw (outcome `thrown`), not return a typed failure result. -/
theorem publishThrows_cx :
    (postToInstagram wUserIgOff wImage 0 wIgT).1 =
      PublishOutcome.thrown "Instagram account not connected" ∧
    (postToTikTok wUser wImage wTtT).1 =
      PublishOutcome.thrown "TikTok posting failed: TikTok only supports video content" := by
  constructor <;> decide

/-- C4 (amended). For expected failures the single-platform publish
throws an `Error` carrying a descriptive message; the multi-platform
`postToBoth` catches every such thrown error and returns it as a typed
`{platform, message}` entry of `errors` (and its `errors` entries arise
from nothing else), itself never throwing. -/
theorem thrownErrorsAggregated (u : JsUser) (content : Content) (now : Nat)
    (tI : IgTransport) (tT : TtTransport) :
    (∀ m, (postToInstagram u content now tI).1 = PublishOutcome.thrown m →
      ("instagram", m) ∈ (postToBoth u content now tI tT).errors) ∧
    (∀ m, (postToTikTok u content tT).1 = PublishOutcome.thrown m →
      ("tiktok", m) ∈ (postToBoth u content now tI tT).errors) ∧
    (∀ pl m, (pl, m) ∈ (postToBoth u content now tI tT).errors →
      (pl = "instagram" ∧ (postToInstagram u content now tI).1 = PublishOutcome.thrown m) ∨
        (pl = "tiktok" ∧ (postToTikTok u content tT).1 = PublishOutcome.thrown m)) := by
  cases hig : (postToInstagram u content now tI).1 <;>
    cases htt : (postToTikTok u content tT).1 <;>
      simp [postToBoth, outcomeErr, hig, htt]
  intro pl m h
  rcases h with ⟨h1, h2⟩ | ⟨h1, h2⟩
  · exact Or.inl ⟨h1, h2.symm⟩
  · exact Or.inr ⟨h1, h2.symm⟩

/-- C4 witness: the thrown Instagram credential error surfaces as the
`("instagram", message)` entry of the aggregate's `errors`. -/
theorem thrownErrorsAggregated_witness :
    (postToInstagram wUserIgOff wImage 0 wIgT).1 =
      PublishOutcome.thrown "Instagram account not connected" ∧
      ("instagram", "Instagram account not connected") ∈
        (postToBoth wUserIgOff wImage 0 wIgT wTtT).errors :=
  ⟨by decide,
    (thrownErrorsAggregated wUserIgOff wImage 0 wIgT wTtT).1
      "Instagram account not connected" (by decide)⟩

/-- C10 witness: the default base URL satisfies the hypothesis, and
`getPublicMediaUrl` is idempotent on the concrete path `photo.jpg`. -/
theorem getPublicMediaUrl_idempotent_witness :
    jsStartsWith defaultBaseUrl "http://" = true ∧
      getPublicMediaUrl defaultBaseUrl (getPublicMediaUrl defaultBaseUrl "photo.jpg") =
        getPublicMediaUrl defaultBaseUrl "photo.jpg" :=
  ⟨by decide, (getPublicMediaUrl_idempotent defaultBaseUrl (Or.inl (by decide)) "photo.jpg").1⟩

/-- C5 counterexample: scheduling enabled, start date in the past, daily
interval, no prior post, one posting time at 20:00. At `now = 300`
(day 0, 05:00 — before today's 20:00, as `300 % 1440 < 1200` shows) the
code returns `some 2640` = day 1 at 20:00 (tomorrow), not `1200` = later
today at the posting time as the claim requires. -/
theorem calculateNextPostTime_cx :
    calculateNextPostTime wDailyQueue 300 = some 2640 ∧
      (300 / 1440) * 1440 + 20 * 60 + 0 = 1200 ∧
      (2640 : Nat) ≠ 1200 ∧
      300 % 1440 < 20 * 60 := by
  decide

/-- C5 (amended). With scheduling enabled, `startAt` in the past, daily
interval, no prior post and one configured posting time, the computed
next post time is tomorrow at that posting time — whether the current
time is before or after today's posting time (the code adds one day to
`now` before applying the posting-time override). -/
theorem calculateNextPostTime_daily (c : QCollection) (now s : Nat) (pt : PostingTime)
    (h1 : c.scheduling.enabled = true)
    (h2 : c.scheduling.startDate = some s)
    (h3 : s < now)
    (h4 : c.stats.lastPostedAt = none)
    (h5 : c.scheduling.interval = "daily")
    (h6 : c.scheduling.postingTimes = [pt])
    (h7 : c.scheduling.endDate = none) :
    calculateNextPostTime c now =
      some ((now / 1440 + 1) * 1440 + pt.hour * 60 + pt.minute) := by
  unfold calculateNextPostTime
  rw [h1, h2, h4, h5, h6, h7]
  simp only [if_pos h3, Bool.true_eq_false, if_false, if_pos rfl]
  simp [setTimeOfDay, Nat.add_div_right, Nat.succ_mul]

/-- C5 witness: the concrete daily queue at `now = 300` computes
tomorrow 20:00 (`2640`). -/
theorem calculateNextPostTime_daily_witness :
    wDailyQueue.scheduling.enabled = true ∧
      calculateNextPostTime wDailyQueue 300 = some 2640 := by
  have h := calculateNextPostTime_daily wDailyQueue 300 0 { hour := 20, minute := 0 }
    rfl rfl (by decide) rfl rfl rfl rfl
  exact ⟨rfl, by simpa using h⟩

/-- C6. With contiguous `order` values (the invariant the mutators
maintain), `getNextItemToPost` returns none when every entry is posted,
and otherwise returns an unposted entry of minimal `order` — FIFO by
`order`. -/
theorem nextItemFIFO (c : QCollection) (h : ordersContiguous c) :
    ((∀ it ∈ c.items, it.posted = true) → getNextItemToPost c = none) ∧
    (∀ it₀ ∈ c.items, it₀.posted = false →
      ∃ it, getNextItemToPost c = some it ∧ it.posted = false ∧
        ∀ u ∈ c.items, u.posted = false → it.order ≤ u.order) := by
  constructor
  · intro hall
    unfold getNextItemToPost
    rw [List.find?_eq_none]
    intro a ha
    simp [hall a ha]
  · intro it₀ hmem hup
    cases hfind : c.items.find? (fun it => it.posted = false) with
    | none =>
      rw [List.find?_eq_none] at hfind
      exact absurd (by simpa using hup) (by simpa using hfind it₀ hmem)
    | some it =>
      obtain ⟨i, hi, hget, hpa, hmin⟩ := find?_first _ c.items it hfind
      refine ⟨it, hfind, by simpa using hpa, ?_⟩
      intro u hu hupost
      obtain ⟨⟨j, hj⟩, hju⟩ := List.mem_iff_get.mp hu
      have hio : it.order = i := by rw [← hget]; exact ordersContiguous_get c h i hi
      have hjo : u.order = j := by rw [← hju]; exact ordersContiguous_get c h j hj
      rcases Nat.lt_or_ge j i with hji | hij
      · exfalso
        have hfalse := hmin j hj hji
        rw [hju] at hfalse
        simp [hupost] at hfalse
      · rw [hio, hjo]
        exact hij

/-- C6 witness: in the two-entry queue (entry 10 posted, entry 11 not),
the selection returns an unposted entry of minimal order. -/
theorem nextItemFIFO_witness :
    ∃ it, getNextItemToPost wQueue2 = some it ∧ it.posted = false ∧
      ∀ u ∈ wQueue2.items, u.posted = false → it.order ≤ u.order :=
  (nextItemFIFO wQueue2 rfl).2 (wItem 11 1 false) (by decide) rfl

/-- C7. Every save recomputes the stats: after the pre-save hook,
`stats.totalItems` is the number of entries and `stats.postedItems` is
the number of posted entries; consequently every mutating queue
operation (addContent, removeContent, reorderContent, markAsPosted)
preserves this accuracy. -/
theorem statsRecomputed :
    (∀ (now : Nat) (c : QCollection), statsAccurate (preSave now c)) ∧
    (∀ (op : QueueOp) (c : QCollection) (now : Nat),
      statsAccurate c → statsAccurate (applyOp op c now)) := by
  constructor
  · intro now c
    exact ⟨rfl, rfl⟩
  · intro op c now hc
    cases op with
    | add cid row col => exact ⟨rfl, rfl⟩
    | remove cid => exact ⟨rfl, rfl⟩
    | reorder cid row col =>
      simp only [applyOp, reorderContent]
      by_cases hfound : c.items.any (fun it => it.contentId = cid) = true
      · rw [if_pos hfound]
        exact ⟨rfl, rfl⟩
      · rw [if_neg hfound]
        exact hc
    | mark cid pid purl => exact ⟨rfl, rfl⟩

/-- C7 witness: marking entry 11 of the two-entry queue leaves the stats
accurate. -/
theorem statsRecomputed_witness :
    statsAccurate wQueue2 ∧
      statsAccurate (applyOp (QueueOp.mark 11 "p" "u") wQueue2 50) :=
  ⟨⟨rfl, rfl⟩, statsRecomputed.2 (QueueOp.mark 11 "p" "u") wQueue2 50 ⟨rfl, rfl⟩⟩

/-- C8. After any sequence of addContent / removeContent operations
starting from a collection with no entries, the entries' `order` values
read in array order are exactly `0, 1, …, n-1` — a contiguous
renumbering, re-established from 0 after every removal. -/
theorem ordersContiguous_applySeq (c : QCollection) (h : c.items = [])
    (ops : List (AROp × Nat)) :
    (applySeq ops c).items.map (fun it => it.order) =
      List.range (applySeq ops c).items.length := by
  have key : ∀ (ops : List (AROp × Nat)) (d : QCollection),
      ordersContiguous d → ordersContiguous (applySeq ops d) := by
    intro ops
    induction ops with
    | nil => intro d hd; exact hd
    | cons p rest ih =>
      intro d hd
      rcases p with ⟨op, now⟩
      cases op with
      | add cid row col =>
        refine ih _ ?_
        unfold ordersContiguous at hd ⊢
        simp only [applyAR, addContent, preSave]
        simp only [List.map_append, hd, List.length_append, List.map_cons, List.map_nil,
          List.length_cons, List.length_nil]
        rw [List.range_succ]
      | remove cid =>
        refine ih _ ?_
        unfold ordersContiguous
        simp only [applyAR, removeContent, preSave]
        simp only [renumber_map_order, renumber_length]
        rw [List.range_eq_range']
  have hbase : ordersContiguous c := by simp [ordersContiguous, h]
  exact key ops c hbase

/-- C8 witness: add two entries then remove the first; the remaining
orders are the contiguous `0..n-1`. -/
theorem ordersContiguous_applySeq_witness :
    emptyCollection.items = [] ∧
      (applySeq [(AROp.add 1 0 0, 5), (AROp.add 2 0 1, 6), (AROp.remove 1, 7)]
            emptyCollection).items.map (fun it => it.order) =
        List.range (applySeq [(AROp.add 1 0 0, 5), (AROp.add 2 0 1, 6), (AROp.remove 1, 7)]
            emptyCollection).items.length :=
  ⟨rfl, ordersContiguous_applySeq emptyCollection rfl
    [(AROp.add 1 0 0, 5), (AROp.add 2 0 1, 6), (AROp.remove 1, 7)]⟩

/-- C9. No queue operation un-posts an entry: if the input holds a posted
entry with a given content id, the output still holds a posted entry
with that id unless the operation removed that id entirely; and a posted
entry in the output traces back to a posted entry in the input unless
the operation is precisely `markAsPosted` for that content id — so the
unposted→posted transition happens only through `markAsPosted` and at
most once per entry. -/
theorem postedMonotone (op : QueueOp) (c : QCollection) (now : Nat) (x : Nat) :
    ((∃ it ∈ c.items, it.contentId = x ∧ it.posted = true) →
      (∃ it ∈ (applyOp op c now).items, it.contentId = x ∧ it.posted = true) ∨
        ∀ it ∈ (applyOp op c now).items, it.contentId ≠ x) ∧
    ((∃ it ∈ (applyOp op c now).items, it.contentId = x ∧ it.posted = true) →
      (∃ it ∈ c.items, it.contentId = x ∧ it.posted = true) ∨
        ∃ pid purl, op = QueueOp.mark x pid purl) := by
  cases op with
  | add cid row col =>
    constructor
    · rintro ⟨it, hm, hx, hp⟩
      exact Or.inl ⟨it, List.mem_append_left _ hm, hx, hp⟩
    · rintro ⟨it, hm, hx, hp⟩
      rcases List.mem_append.mp hm with hm | hm
      · exact Or.inl ⟨it, hm, hx, hp⟩
      · simp only [List.mem_singleton] at hm
        subst hm
        simp at hp
  | remove cid =>
    constructor
    · rintro ⟨it₀, hm, hx, hp⟩
      by_cases hxc : x = cid
      · refine Or.inr ?_
        intro it hit
        obtain ⟨it₁, hm₁, hid, _⟩ :=
          renumber_mem (c.items.filter (fun j => j.contentId ≠ cid)) 0 it hit
        have := (List.mem_filter.mp hm₁).2
        rw [hid, hxc]
        simpa using this
      · refine Or.inl ?_
        have hmf : it₀ ∈ c.items.filter (fun j => j.contentId ≠ cid) := by
          refine List.mem_filter.mpr ⟨hm, ?_⟩
          simp [hx, hxc]
        obtain ⟨it, hit, hid, hpos⟩ :=
          renumber_mem_of (c.items.filter (fun j => j.contentId ≠ cid)) 0 it₀ hmf
        exact ⟨it, hit, by rw [hid, hx], by rw [hpos, hp]⟩
    · rintro ⟨it, hm, hx, hp⟩
      obtain ⟨it₀, hm₀, hid, hpos⟩ :=
        renumber_mem (c.items.filter (fun j => j.contentId ≠ cid)) 0 it hm
      exact Or.inl ⟨it₀, (List.mem_filter.mp hm₀).1, by rw [← hid, hx], by rw [← hpos, hp]⟩
  | reorder cid row col =>
    simp only [applyOp, reorderContent]
    by_cases hfound : c.items.any (fun it => it.contentId = cid) = true
    · rw [if_pos hfound]
      constructor
      · rintro ⟨it₀, hm, hx, hp⟩
        obtain ⟨it, hit, hid, hpos⟩ := setPosFirst_preserve c.items cid row col it₀ hm
        exact Or.inl ⟨it, hit, by rw [hid, hx], by rw [hpos, hp]⟩
      · rintro ⟨it, hm, hx, hp⟩
        obtain ⟨it₀, hm₀, hid, hpos⟩ := setPosFirst_mem c.items cid row col it hm
        exact Or.inl ⟨it₀, hm₀, by rw [← hid, hx], by rw [← hpos, hp]⟩
    · rw [if_neg hfound]
      constructor
      · exact fun h => Or.inl h
      · exact fun h => Or.inl h
  | mark cid pid purl =>
    constructor
    · rintro ⟨it₀, hm, hx, hp⟩
      obtain ⟨it, hit, hid, hpos⟩ := markFirstPosted_preserve c.items cid pid purl now it₀ hm hp
      exact Or.inl ⟨it, hit, by rw [hid, hx], hpos⟩
    · rintro ⟨it, hm, hx, hp⟩
      rcases markFirstPosted_mem c.items cid pid purl now it hm with hm₀ | ⟨hid, _⟩
      · exact Or.inl ⟨it, hm₀, hx, hp⟩
      · refine Or.inr ⟨pid, purl, ?_⟩
        rw [← hx, hid]

/-- C9 witness: marking entry 11 keeps the already-posted entry 10
posted. -/
theorem postedMonotone_witness :
    ∃ it ∈ (applyOp (QueueOp.mark 11 "p" "u") wQueue2 50).items,
      it.contentId = 10 ∧ it.posted = true := by
  have h := (postedMonotone (QueueOp.mark 11 "p" "u") wQueue2 50 10).1
    ⟨wItem 10 0 true, by decide, rfl, rfl⟩
  rcases h with h | h
  · exact h
  · exact absurd rfl (h (wItem 10 0 true) (by decide))

end Postpilot
